import Mathlib

/-!
Shallow embedding of `lib/sync.js` from the highrise-slack-webhook
repository: a sync pipeline that fetches CRM recordings since a
checkpoint, filters them, enriches each with author and subject,
formats a chat webhook payload and posts it, then returns a new
checkpoint.

Modelling conventions:
* Timestamps are naturals (epoch milliseconds), matching the numeric
  comparisons performed on Date values in the source.
* The Highrise client, the mail parser and the outbound webhook POST
  are external collaborators; they are modelled as fields of an `Env`
  record of pure fallible functions (`Except String`).
* Node-style callbacks become `Except` values; the `run-series`
  combinator, which runs tasks in order and aborts on the first error,
  becomes the recursive `runSeries` below.
* The in-place JavaScript comparator sort `Array.prototype.sort(cmp)`
  is modelled by `List.insertionSort` over the same key ordering: any
  comparator-sorted permutation has the same last element key, which is
  all the checkpoint computation reads.
* The JavaScript mutation `recording.author = user` is modelled by the
  `EnrichedRecording` record, which carries the untouched fetched
  recording together with the two attached entities.
-/

/-- A Highrise user; the formatter only reads `name`. -/
structure User where
  name : String
deriving DecidableEq

/-- A subject entity (person, company, deal or case); only `id` is read. -/
structure Subject where
  id : Nat
deriving DecidableEq

/-- A CRM recording as fetched from `recordings.xml`. `title` empty models
a missing title, mirroring the JavaScript truthiness test `if (recording.title)`. -/
structure Recording where
  id : Nat
  type : String
  body : String
  title : String
  authorId : Nat
  subjectId : Nat
  subjectType : String
  subjectName : String
  visibleTo : String
  groupId : Int
  createdAt : Nat
  updatedAt : Nat
deriving DecidableEq

/-- The recording with the two entities the enrichment step attaches. -/
structure EnrichedRecording where
  recording : Recording
  author : User
  subject : Subject
deriving DecidableEq

/-- The configuration the module reads from the process environment. -/
structure Config where
  highriseUrl : String
  slackUrl : String
  groups : List Int
  showEveryone : Bool
deriving DecidableEq

/-- One Slack attachment of the outbound payload. -/
structure Attachment where
  fallback : String
  text : String
  ts : ℚ
  mrkdwn_in : List String
  title : Option String := none
  title_link : Option String := none
deriving DecidableEq

/-- The outbound webhook payload. -/
structure Payload where
  text : String
  username : String
  icon_url : String
  attachments : List Attachment
deriving DecidableEq

/-- External collaborators: the Highrise client on its four endpoint
shapes, the MIME parser (returns the extracted plain text, the field
`mail.text` of the source) and the webhook POST transport. -/
structure Env where
  fetchRecordings : Nat → Except String (List Recording)
  fetchUser : Nat → Except String User
  fetchSubject : String → Nat → Except String Subject
  mimeParse : String → Except String String
  postWebhook : Payload → Except String Unit

deriving instance DecidableEq for Except

/-- Result of one sync cycle: the callback value (error or new
checkpoint) together with the payloads that were successfully POSTed. -/
structure SyncResult where
  result : Except String Nat
  posted : List Payload
deriving DecidableEq

/-- The `recordingTypes` table: recognized types and their labels. -/
def recordingTypes : List (String × String) :=
  [("email", "an email"), ("note", "a note"), ("comment", "a comment")]

/-- `filterRecord` from the source: type is recognized, the visibility
rule holds, and the record was created strictly after the checkpoint. -/
def filterRecord (config : Config) (lastCheck : Nat) (record : Recording) : Bool :=
  (recordingTypes.map Prod.fst).contains record.type &&
    ((record.visibleTo == "Everyone" && config.showEveryone) ||
      config.groups.contains record.groupId) &&
    decide (record.createdAt > lastCheck)

/-- `getSubjectPath` from the source: map a subject type to its
collection path, defaulting to `people`. -/
def getSubjectPath (type : String) : String :=
  if type = "Party" then "people"
  else if type = "Deal" then "deals"
  else if type = "Kase" then "kases"
  else "people"

/-- `getSubject` from the source, instrumented with the list of paths it
fetched. On failure of a `people` fetch it retries `companies` once (the
recursive call in the source immediately bottoms out because the path
`companies` differs from `people`); failure on any other path
propagates at once. -/
def getSubjectT (env : Env) (subjectId : Nat) (subjectPath : String) :
    Except String Subject × List String :=
  match env.fetchSubject subjectPath subjectId with
  | .ok subject => (.ok subject, [subjectPath])
  | .error e =>
    if subjectPath = "people" then
      match env.fetchSubject "companies" subjectId with
      | .ok subject => (.ok subject, [subjectPath, "companies"])
      | .error e2 => (.error e2, [subjectPath, "companies"])
    else (.error e, [subjectPath])

/-- The value `getSubject` passes to its callback. -/
def getSubject (env : Env) (subjectId : Nat) (subjectPath : String) :
    Except String Subject :=
  (getSubjectT env subjectId subjectPath).1

/-- The plaintext header the source prepends before MIME parsing. -/
def mimeWrap (body : String) : String :=
  "Content-Type: text/plain; charset=UTF-8\n\n" ++ body

/-- JavaScript `a || b` on strings: the empty string is falsy. -/
def jsOr (a b : String) : String :=
  if a = "" then b else a

/-- `parseBody` from the source: notes pass through verbatim; otherwise
the body is wrapped with a plaintext content-type header, MIME parsed,
and the result is `mail.text || recording.body || ""`. -/
def parseBody (env : Env) (recording : Recording) : Except String String :=
  if recording.type = "note" then .ok recording.body
  else
    match env.mimeParse (mimeWrap recording.body) with
    | .error e => .error e
    | .ok text => .ok (jsOr text (jsOr recording.body ""))

/-- `truncate` from the source: the truncation logic is commented out,
so this is the identity. -/
def truncate (text : String) : String :=
  text

/-- The canonical link to a recording, as built in `formatWebhook`. -/
def recordingLinkOf (config : Config) (recording : Recording) : String :=
  config.highriseUrl ++ recording.type ++ "s/" ++ toString recording.id

/-- The link to the subject entity, as built in `formatWebhook`. -/
def subjectLinkOf (config : Config) (er : EnrichedRecording) : String :=
  config.highriseUrl ++ getSubjectPath er.recording.subjectType ++ "/" ++
    toString er.subject.id

/-- `formatWebhook` from the source: build the Slack payload from an
enriched recording; fails exactly when `parseBody` fails. -/
def formatWebhook (env : Env) (config : Config) (er : EnrichedRecording) :
    Except String Payload :=
  let authorFirstName := (er.author.name.splitOn " ").headD ""
  let recordingType := (recordingTypes.lookup er.recording.type).getD "a note"
  match parseBody env er.recording with
  | .error e => .error e
  | .ok body0 =>
    let truncatedBody := truncate body0
    let recordingLink := recordingLinkOf config er.recording
    let subjectLink := subjectLinkOf config er
    let body := if truncatedBody ≠ body0 then
        truncatedBody ++ " <" ++ recordingLink ++ "|Read more…>"
      else body0
    let baseAttachment : Attachment :=
      { fallback := er.recording.body
        text := body
        ts := (er.recording.createdAt : ℚ) / 1000
        mrkdwn_in := ["text", "pretext"] }
    let attachment := if er.recording.title ≠ "" then
        { baseAttachment with
          title := some er.recording.title
          title_link := some (recordingLinkOf config er.recording) }
      else baseAttachment
    .ok
      { text := authorFirstName ++ " shared <" ++ recordingLink ++ "|" ++
          recordingType ++ "> about <" ++ subjectLink ++ "|" ++
          er.recording.subjectName ++ ">"
        username := "highrise"
        icon_url := "http://68.media.tumblr.com/avatar_079aaa3d2066_128.png"
        attachments := [attachment] }

/-- The enrichment half of `sendWebhook`: fetch the author and resolve
the subject; `none` when either fails (the record is to be skipped),
otherwise the recording with both entities attached. -/
def enrich (env : Env) (r : Recording) : Option EnrichedRecording :=
  match env.fetchUser r.authorId,
      getSubject env r.subjectId (getSubjectPath r.subjectType) with
  | .ok user, .ok subject => some ⟨r, user, subject⟩
  | _, _ => none

/-- `sendWebhook` from the source: on an author or subject fetch error
the record is skipped (`ok none`, no error propagated); on success the
payload is formatted and POSTed, and errors from either of those two
steps propagate to the series callback. `ok (some p)` means `p` was
POSTed successfully. -/
def sendWebhook (env : Env) (config : Config) (r : Recording) :
    Except String (Option Payload) :=
  match enrich env r with
  | none => .ok none
  | some er =>
    match formatWebhook env config er with
    | .error e => .error e
    | .ok payload =>
      match env.postWebhook payload with
      | .error e => .error e
      | .ok _ => .ok (some payload)

/-- The `run-series` combinator over `sendWebhook` tasks: run in order,
abort on the first task error; also collect the payloads POSTed before
any abort. -/
def runSeries (env : Env) (config : Config) :
    List Recording → Except String Unit × List Payload
  | [] => (.ok (), [])
  | r :: rest =>
    match sendWebhook env config r with
    | .error e => (.error e, [])
    | .ok none => runSeries env config rest
    | .ok (some p) =>
      let tail := runSeries env config rest
      (tail.1, p :: tail.2)

/-- Key order used by the source comparator `cmp("updatedAt")`. -/
def updatedLe (a b : Recording) : Prop :=
  a.updatedAt ≤ b.updatedAt

instance : DecidableRel updatedLe :=
  fun a b => inferInstanceAs (Decidable (a.updatedAt ≤ b.updatedAt))

instance : IsTotal Recording updatedLe :=
  ⟨fun a b => Nat.le_total a.updatedAt b.updatedAt⟩

instance : IsTrans Recording updatedLe :=
  ⟨fun _ _ _ => Nat.le_trans⟩

/-- Key order used by the source comparator `cmp("createdAt")`. -/
def createdLe (a b : Recording) : Prop :=
  a.createdAt ≤ b.createdAt

instance : DecidableRel createdLe :=
  fun a b => inferInstanceAs (Decidable (a.createdAt ≤ b.createdAt))

instance : IsTotal Recording createdLe :=
  ⟨fun a b => Nat.le_total a.createdAt b.createdAt⟩

instance : IsTrans Recording createdLe :=
  ⟨fun _ _ _ => Nat.le_trans⟩

/-- `data.sort(cmp("updatedAt"))[data.length - 1].updatedAt` from the
source: the `updatedAt` of the last element after sorting by that key.
The `none` branch (empty fetch) is unreachable where this is used,
because the filtered set is then empty and the cycle returns early. -/
def lastUpdatedAt (data : List Recording) : Nat :=
  match (List.insertionSort updatedLe data).getLast? with
  | some r => r.updatedAt
  | none => 0

/-- `sync` from the source: fetch recordings since the checkpoint,
filter and sort them, return the checkpoint unchanged when nothing
qualifies, otherwise run the per-record pipeline in series and, on
success, return the maximal `updatedAt` of the full unfiltered fetch. -/
def sync (env : Env) (config : Config) (lastCheck : Nat) : SyncResult :=
  match env.fetchRecordings lastCheck with
  | .error e => ⟨.error e, []⟩
  | .ok data =>
    let filteredData :=
      List.insertionSort createdLe (data.filter (filterRecord config lastCheck))
    if filteredData.isEmpty then ⟨.ok lastCheck, []⟩
    else
      let res := runSeries env config filteredData
      match res.1 with
      | .error e => ⟨.error e, res.2⟩
      | .ok _ => ⟨.ok (lastUpdatedAt data), res.2⟩

/-- Spec-side definition: the maximum `updatedAt` over a fetch result,
written directly as a fold of `Nat.max`. -/
def maxUpdatedAt (data : List Recording) : Nat :=
  data.foldl (fun m r => Nat.max m r.updatedAt) 0

/-! Concrete fixtures used to exercise the theorems on closed inputs. -/

/-- A sample user. -/
def user1 : User := ⟨"Jane Doe"⟩

/-- A sample subject entity. -/
def subj1 : Subject := ⟨7⟩

/-- A qualifying email recording (visible to everyone, fresh). -/
def recEmail : Recording :=
  { id := 1, type := "email", body := "hello body", title := "Subject line",
    authorId := 3, subjectId := 7, subjectType := "Party", subjectName := "Acme",
    visibleTo := "Everyone", groupId := 0, createdAt := 100, updatedAt := 150 }

/-- A recording of unrecognized type `call`; the filter drops it, yet its
later `updatedAt` still drives the checkpoint. -/
def recCall : Recording :=
  { id := 2, type := "call", body := "x", title := "",
    authorId := 3, subjectId := 7, subjectType := "Deal", subjectName := "Acme",
    visibleTo := "Everyone", groupId := 0, createdAt := 120, updatedAt := 180 }

/-- A sample note recording. -/
def recNote : Recording :=
  { id := 3, type := "note", body := "raw note body", title := "",
    authorId := 3, subjectId := 7, subjectType := "Kase", subjectName := "Acme",
    visibleTo := "Owner", groupId := 5, createdAt := 130, updatedAt := 140 }

/-- A sample configuration showing everything visible to everyone. -/
def config1 : Config :=
  { highriseUrl := "https://hr.example/", slackUrl := "https://slack.example/",
    groups := [], showEveryone := true }

/-- Collaborators that all succeed. -/
def envOk : Env :=
  { fetchRecordings := fun _ => .ok [recEmail, recCall]
    fetchUser := fun _ => .ok user1
    fetchSubject := fun _ _ => .ok subj1
    mimeParse := fun _ => .ok "parsed text"
    postWebhook := fun _ => .ok () }

/-- Collaborators where every author lookup fails. -/
def envUserFail : Env :=
  { envOk with fetchUser := fun _ => .error "user fail" }

/-- Collaborators where every webhook POST fails. -/
def envPostFail : Env :=
  { envOk with postWebhook := fun _ => .error "post failed" }

/-- Collaborators where MIME parsing fails. -/
def envParseFail : Env :=
  { envOk with mimeParse := fun _ => .error "parse" }

/-- Collaborators where the `people` collection fails but others work. -/
def envPeopleFail : Env :=
  { envOk with fetchSubject := fun path _ =>
      if path = "people" then .error "not a person" else .ok subj1 }

/-- Collaborators where every subject fetch fails. -/
def envSubFail : Env :=
  { envOk with fetchSubject := fun _ _ => .error "subject down" }

/-- The enriched form of the sample email recording. -/
def er1 : EnrichedRecording := ⟨recEmail, user1, subj1⟩

/-- The payload the formatter produces for `er1` (closed form used by
the delivery-failure scenario). -/
def payload1 : Payload :=
  (formatWebhook envPostFail config1 er1).toOption.getD ⟨"", "", "", []⟩

/-! Helper lemmas about the fold maximum and the sorted last element. -/

/-- The fold of `Nat.max` over update times never drops below its seed. -/
theorem foldl_max_init_le (l : List Recording) (a : Nat) :
    a ≤ l.foldl (fun m r => Nat.max m r.updatedAt) a := by
  induction l generalizing a with
  | nil => simp
  | cons x t ih => exact le_trans (Nat.le_max_left _ _) (ih _)

/-- Every member bounds the fold of `Nat.max` over update times. -/
theorem updatedAt_le_foldl_max {l : List Recording} {r : Recording} (hr : r ∈ l)
    (a : Nat) : r.updatedAt ≤ l.foldl (fun m r => Nat.max m r.updatedAt) a := by
  induction l generalizing a with
  | nil => cases hr
  | cons x t ih =>
    rcases List.mem_cons.mp hr with rfl | hmem
    · exact le_trans (Nat.le_max_right a r.updatedAt) (foldl_max_init_le t _)
    · exact ih hmem _

/-- The fold of `Nat.max` is the seed or an attained update time. -/
theorem foldl_max_cases (l : List Recording) (a : Nat) :
    l.foldl (fun m r => Nat.max m r.updatedAt) a = a ∨
      ∃ r ∈ l, l.foldl (fun m r => Nat.max m r.updatedAt) a = r.updatedAt := by
  induction l generalizing a with
  | nil => exact Or.inl rfl
  | cons x t ih =>
    rcases ih (Nat.max a x.updatedAt) with h | ⟨r, hr, h⟩
    · rcases Nat.le_total x.updatedAt a with hle | hle
      · left
        simpa [Nat.max_eq_left hle] using h
      · right
        exact ⟨x, List.mem_cons_self x t, by simpa [Nat.max_eq_right hle] using h⟩
    · exact Or.inr ⟨r, List.mem_cons_of_mem x hr, h⟩

/-- In a list sorted by `updatedLe`, the last element bounds every member. -/
theorem sorted_getLast?_max :
    ∀ (l : List Recording), l.Pairwise updatedLe →
      ∀ r ∈ l, ∀ y, l.getLast? = some y → r.updatedAt ≤ y.updatedAt := by
  intro l
  induction l with
  | nil => intro _ r hr; cases hr
  | cons x t ih =>
    intro hp r hr y hy
    match t, hy with
    | [], hy =>
      have hx : r = x := by simpa using hr
      have hxy : y = x := by simpa using hy.symm
      simp [hx, hxy]
    | z :: t2, hy =>
      have hy2 : (z :: t2).getLast? = some y := by simpa using hy
      rcases List.mem_cons.mp hr with rfl | hmem
      · have hyMem : y ∈ z :: t2 := List.mem_of_getLast?_eq_some hy2
        exact (List.pairwise_cons.mp hp).1 y hyMem
      · exact ih (List.pairwise_cons.mp hp).2 r hmem y hy2

/-- Every fetched record has its update time bounded by the value the
cycle computes from the sorted fetch result. -/
theorem updatedAt_le_lastUpdatedAt {data : List Recording} {r : Recording}
    (hr : r ∈ data) : r.updatedAt ≤ lastUpdatedAt data := by
  unfold lastUpdatedAt
  have hmem : r ∈ List.insertionSort updatedLe data :=
    (List.mem_insertionSort updatedLe).mpr hr
  have hs : (List.insertionSort updatedLe data).Pairwise updatedLe :=
    List.sorted_insertionSort updatedLe data
  cases hl : (List.insertionSort updatedLe data).getLast? with
  | none =>
    rw [List.getLast?_eq_none_iff] at hl
    rw [hl] at hmem
    cases hmem
  | some y => exact sorted_getLast?_max _ hs r hmem y hl

/-- On a non-empty fetch result the value the cycle computes is exactly
the fold-maximum of the update times. -/
theorem lastUpdatedAt_eq_maxUpdatedAt {data : List Recording} (h : data ≠ []) :
    lastUpdatedAt data = maxUpdatedAt data := by
  have hsne : List.insertionSort updatedLe data ≠ [] := by
    intro hnil
    have hlen := List.length_insertionSort updatedLe data
    rw [hnil] at hlen
    exact h (List.length_eq_zero.mp hlen.symm)
  apply Nat.le_antisymm
  · cases hl : (List.insertionSort updatedLe data).getLast? with
    | none => exact absurd (List.getLast?_eq_none_iff.mp hl) hsne
    | some y =>
      have hyMem : y ∈ data :=
        (List.mem_insertionSort updatedLe).mp (List.mem_of_getLast?_eq_some hl)
      have : lastUpdatedAt data = y.updatedAt := by unfold lastUpdatedAt; rw [hl]
      rw [this]
      exact updatedAt_le_foldl_max hyMem 0
  · rcases foldl_max_cases data 0 with h0 | ⟨r, hrMem, hrEq⟩
    · unfold maxUpdatedAt
      rw [h0]
      exact Nat.zero_le _
    · unfold maxUpdatedAt
      rw [hrEq]
      exact updatedAt_le_lastUpdatedAt hrMem

/-! Helper lemmas characterizing the orchestrator. -/

/-- When nothing qualifies after filtering, the cycle is a no-op. -/
theorem sync_filtered_nil {env : Env} {config : Config} {lastCheck : Nat}
    {data : List Recording}
    (hf : env.fetchRecordings lastCheck = .ok data)
    (hnil : data.filter (filterRecord config lastCheck) = []) :
    sync env config lastCheck = ⟨.ok lastCheck, []⟩ := by
  unfold sync
  rw [hf]
  simp [hnil]

/-- A successful cycle either was a no-op (empty candidate set) or
returned the last update time of the sorted full fetch result. -/
theorem sync_result_ok {env : Env} {config : Config} {lastCheck cp : Nat}
    {data : List Recording}
    (hf : env.fetchRecordings lastCheck = .ok data)
    (hok : (sync env config lastCheck).result = .ok cp) :
    (data.filter (filterRecord config lastCheck) = [] ∧ cp = lastCheck) ∨
      (data.filter (filterRecord config lastCheck) ≠ [] ∧
        cp = lastUpdatedAt data) := by
  unfold sync at hok
  rw [hf] at hok
  by_cases hnil : data.filter (filterRecord config lastCheck) = []
  · left
    refine ⟨hnil, ?_⟩
    simp [hnil] at hok
    exact hok.symm
  · right
    refine ⟨hnil, ?_⟩
    have hsne : List.insertionSort createdLe
        (data.filter (filterRecord config lastCheck)) ≠ [] := by
      intro hni
      have := List.length_insertionSort createdLe
        (data.filter (filterRecord config lastCheck))
      rw [hni] at this
      exact hnil (List.length_eq_zero.mp this.symm)
    simp only [List.isEmpty_eq_true, hsne, if_false] at hok
    cases hrun : (runSeries env config (List.insertionSort createdLe
        (data.filter (filterRecord config lastCheck)))).1 with
    | error e =>
      rw [hrun] at hok
      cases hok
    | ok u =>
      rw [hrun] at hok
      cases hok
      rfl

/-- If a task in the series fails, the series fails. -/
theorem runSeries_error_of_mem {env : Env} {config : Config}
    {l : List Recording} {r : Recording} {e : String}
    (hr : r ∈ l) (hs : sendWebhook env config r = .error e) :
    ∃ e2, (runSeries env config l).1 = .error e2 := by
  induction l with
  | nil => cases hr
  | cons x t ih =>
    rcases List.mem_cons.mp hr with rfl | hmem
    · exact ⟨e, by simp [runSeries, hs]⟩
    · cases hx : sendWebhook env config x with
      | error e3 => exact ⟨e3, by simp [runSeries, hx]⟩
      | ok p =>
        rcases ih hmem with ⟨e2, h2⟩
        cases p with
        | none => exact ⟨e2, by simp [runSeries, hx, h2]⟩
        | some q => exact ⟨e2, by simp [runSeries, hx, h2]⟩

/-- If some fetched candidate aborts the series, the whole cycle
returns an error and no checkpoint. -/
theorem sync_error_of_candidate {env : Env} {config : Config}
    {lastCheck : Nat} {data : List Recording} {r : Recording} {e : String}
    (hf : env.fetchRecordings lastCheck = .ok data)
    (hmem : r ∈ data) (hfil : filterRecord config lastCheck r = true)
    (hs : sendWebhook env config r = .error e) :
    (sync env config lastCheck).result.toOption = none := by
  have hrf : r ∈ data.filter (filterRecord config lastCheck) :=
    List.mem_filter.mpr ⟨hmem, hfil⟩
  have hrs : r ∈ List.insertionSort createdLe
      (data.filter (filterRecord config lastCheck)) :=
    (List.mem_insertionSort createdLe).mpr hrf
  have hne : List.insertionSort createdLe
      (data.filter (filterRecord config lastCheck)) ≠ [] := by
    intro hni
    rw [hni] at hrs
    cases hrs
  rcases runSeries_error_of_mem hrs hs with ⟨e2, hrun⟩
  unfold sync
  rw [hf]
  simp only [List.isEmpty_eq_true, hne, if_false, hrun]
  rfl

/-- The enrichment step keeps the fetched recording intact. -/
theorem enrich_recording {env : Env} {r : Recording} {er : EnrichedRecording}
    (h : enrich env r = some er) : er.recording = r := by
  unfold enrich at h
  cases hu : env.fetchUser r.authorId with
  | error e => rw [hu] at h; cases h
  | ok u =>
    cases hsub : getSubject env r.subjectId (getSubjectPath r.subjectType) with
    | error e => rw [hu, hsub] at h; cases h
    | ok s =>
      rw [hu, hsub] at h
      cases h
      rfl

/-- An accepted record was created strictly after the checkpoint. -/
theorem filter_lt_createdAt {config : Config} {lastCheck : Nat} {r : Recording}
    (h : filterRecord config lastCheck r = true) : lastCheck < r.createdAt := by
  simp [filterRecord] at h
  exact h.2

/-- A record created at or before the checkpoint is rejected. -/
theorem filter_false_of_le {config : Config} {lastCheck : Nat} {r : Recording}
    (h : r.createdAt ≤ lastCheck) : filterRecord config lastCheck r = false := by
  simp [filterRecord]
  intro _ _
  exact fun _ => h

/-! The claims. -/

/-- C1: for every successful sync cycle whose fetch returns a non-empty
list and whose filtered candidate set is non-empty, the returned new
checkpoint equals the maximum updatedAt over the full unfiltered fetch
result, including records the filter excluded and records skipped by
per-record failures. -/
theorem c1_checkpoint_is_max_updatedAt (env : Env) (config : Config)
    (lastCheck cp : Nat) (data : List Recording)
    (hf : env.fetchRecordings lastCheck = .ok data)
    (hdata : data ≠ [])
    (hcand : data.filter (filterRecord config lastCheck) ≠ [])
    (hok : (sync env config lastCheck).result = .ok cp) :
    cp = maxUpdatedAt data := by
  rcases sync_result_ok hf hok with ⟨hnil, _⟩ | ⟨_, hcp⟩
  · exact absurd hnil hcand
  · rw [hcp]
    exact lastUpdatedAt_eq_maxUpdatedAt hdata

/-- Closed instance of C1: two fetched records, one filtered out, one
posted; the checkpoint 180 is the maximum updatedAt over both. -/
theorem c1_witness : (180 : Nat) = maxUpdatedAt [recEmail, recCall] :=
  c1_checkpoint_is_max_updatedAt envOk config1 50 180 [recEmail, recCall]
    rfl (by decide) (by decide) (by decide)

/-- C2: the record filter accepts a record exactly when its type is one
of email, note, comment, the visibility rule holds (visible to everyone
with showEveryone set, or its group is configured), and it was created
strictly after the checkpoint; creation exactly at the checkpoint is
excluded. -/
theorem c2_filter_iff (config : Config) (lastCheck : Nat) (r : Recording) :
    filterRecord config lastCheck r = true ↔
      ((r.type = "email" ∨ r.type = "note" ∨ r.type = "comment") ∧
        ((r.visibleTo = "Everyone" ∧ config.showEveryone = true) ∨
          r.groupId ∈ config.groups) ∧
        lastCheck < r.createdAt) := by
  simp [filterRecord, recordingTypes, and_assoc]

/-- C8: every cycle that completes without error returns a checkpoint
greater than or equal to the input checkpoint, given that no fetched
record was updated before it was created. -/
theorem c8_checkpoint_monotone (env : Env) (config : Config)
    (lastCheck cp : Nat) (data : List Recording)
    (hf : env.fetchRecordings lastCheck = .ok data)
    (hsane : ∀ r ∈ data, r.createdAt ≤ r.updatedAt)
    (hok : (sync env config lastCheck).result = .ok cp) :
    lastCheck ≤ cp := by
  rcases sync_result_ok hf hok with ⟨_, hcp⟩ | ⟨hne, hcp⟩
  · rw [hcp]
  · rcases List.exists_mem_of_ne_nil _ hne with ⟨x, hx⟩
    have hxd := List.mem_filter.mp hx
    have h1 : lastCheck < x.createdAt := filter_lt_createdAt hxd.2
    have h2 : x.createdAt ≤ x.updatedAt := hsane x hxd.1
    have h3 : x.updatedAt ≤ lastUpdatedAt data := updatedAt_le_lastUpdatedAt hxd.1
    rw [hcp]
    exact Nat.le_of_lt (Nat.lt_of_lt_of_le h1 (Nat.le_trans h2 h3))

/-- Closed instance of C8: a cycle from checkpoint 50 returns 180. -/
theorem c8_witness : (sync envOk config1 50).result = Except.ok 180 ∧ 50 ≤ 180 :=
  ⟨by decide, c8_checkpoint_monotone envOk config1 50 180 [recEmail, recCall]
    rfl (by decide) (by decide)⟩

/-- C3: a candidate whose author fetch or subject fetch fails is skipped
without producing a payload and without propagating an error; on success
of both fetches the recording is enriched with author and subject
attached and its fetched fields unchanged; and a successful cycle still
advances the checkpoint to cover every fetched record, skipped ones
included. -/
theorem c3_fetch_failure_skips (env : Env) (config : Config) (r : Recording) :
    (∀ e, env.fetchUser r.authorId = .error e →
      sendWebhook env config r = .ok none) ∧
    (∀ e, getSubject env r.subjectId (getSubjectPath r.subjectType) = .error e →
      sendWebhook env config r = .ok none) ∧
    (∀ u s, env.fetchUser r.authorId = .ok u →
      getSubject env r.subjectId (getSubjectPath r.subjectType) = .ok s →
      enrich env r = some ⟨r, u, s⟩) ∧
    (∀ lastCheck data cp, env.fetchRecordings lastCheck = .ok data →
      r ∈ data → data.filter (filterRecord config lastCheck) ≠ [] →
      (sync env config lastCheck).result = .ok cp →
      r.updatedAt ≤ cp) := by
  refine ⟨?_, ?_, ?_, ?_⟩
  · intro e he
    cases hsub : getSubject env r.subjectId (getSubjectPath r.subjectType) with
    | error e2 => simp [sendWebhook, enrich, he, hsub]
    | ok s => simp [sendWebhook, enrich, he, hsub]
  · intro e he
    cases hu : env.fetchUser r.authorId with
    | error e2 => simp [sendWebhook, enrich, he, hu]
    | ok u => simp [sendWebhook, enrich, he, hu]
  · intro u s hu hs
    simp [enrich, hu, hs]
  · intro lastCheck data cp hf hmem hne hok
    rcases sync_result_ok hf hok with ⟨hnil, _⟩ | ⟨_, hcp⟩
    · exact absurd hnil hne
    · rw [hcp]
      exact updatedAt_le_lastUpdatedAt hmem

/-- Closed instance of C3: with every author lookup failing, the
candidate is skipped with no error, the cycle still succeeds, and the
checkpoint still covers the skipped updatedAt 150. -/
theorem c3_witness :
    sendWebhook envUserFail config1 recEmail = .ok none ∧
      recEmail.updatedAt ≤ 180 :=
  ⟨(c3_fetch_failure_skips envUserFail config1 recEmail).1 "user fail" rfl,
    (c3_fetch_failure_skips envUserFail config1 recEmail).2.2.2 50
      [recEmail, recCall] 180 rfl (by decide) (by decide) (by decide)⟩

/-- C4: if the webhook POST for a candidate fails, the error propagates
out of sync and no new checkpoint is returned for the cycle. -/
theorem c4_delivery_error_aborts (env : Env) (config : Config)
    (lastCheck : Nat) (data : List Recording) (r : Recording)
    (er : EnrichedRecording) (payload : Payload) (e : String)
    (hf : env.fetchRecordings lastCheck = .ok data)
    (hmem : r ∈ data) (hfil : filterRecord config lastCheck r = true)
    (henr : enrich env r = some er)
    (hfmt : formatWebhook env config er = .ok payload)
    (hpost : env.postWebhook payload = .error e) :
    (sync env config lastCheck).result.toOption = none := by
  have hsend : sendWebhook env config r = .error e := by
    simp [sendWebhook, henr, hfmt, hpost]
  exact sync_error_of_candidate hf hmem hfil hsend

/-- Closed instance of C4: with the POST failing, the cycle returns an
error and no checkpoint. -/
theorem c4_witness : (sync envPostFail config1 50).result.toOption = none :=
  c4_delivery_error_aborts envPostFail config1 50 [recEmail, recCall] recEmail
    er1 payload1 "post failed" rfl (by decide) (by decide) rfl rfl rfl

/-- C9: a second sync from the returned checkpoint, when the CRM hands
back no records beyond those of the first fetch, returns the same
checkpoint and posts nothing; and whenever the filtered candidate set is
empty, sync returns its input checkpoint unchanged and posts nothing. -/
theorem c9_idempotent (env : Env) (config : Config) (cp0 cp1 : Nat)
    (data1 data2 : List Recording)
    (hf1 : env.fetchRecordings cp0 = .ok data1)
    (hsane : ∀ r ∈ data1, r.createdAt ≤ r.updatedAt)
    (hok1 : (sync env config cp0).result = .ok cp1)
    (hf2 : env.fetchRecordings cp1 = .ok data2)
    (hsub : ∀ r ∈ data2, r ∈ data1) :
    sync env config cp1 = ⟨.ok cp1, []⟩ ∧
      (∀ lc d, env.fetchRecordings lc = .ok d →
        d.filter (filterRecord config lc) = [] →
        sync env config lc = ⟨.ok lc, []⟩) := by
  constructor
  · have hnil2 : data2.filter (filterRecord config cp1) = [] := by
      rw [List.filter_eq_nil_iff]
      intro r hr
      rcases sync_result_ok hf1 hok1 with ⟨hnil, hcp⟩ | ⟨_, hcp⟩
      · rw [List.filter_eq_nil_iff] at hnil
        rw [hcp]
        exact hnil r (hsub r hr)
      · have h1 : r.updatedAt ≤ lastUpdatedAt data1 :=
          updatedAt_le_lastUpdatedAt (hsub r hr)
        have h2 : r.createdAt ≤ cp1 := by
          rw [hcp]
          exact Nat.le_trans (hsane r (hsub r hr)) h1
        simp [filter_false_of_le h2]
    exact sync_filtered_nil hf2 hnil2
  · intro lc d hfd hnil
    exact sync_filtered_nil hfd hnil

/-- Closed instance of C9: rerunning from the returned checkpoint 180
over the same CRM data returns 180 again and posts nothing. -/
theorem c9_witness : sync envOk config1 180 = ⟨Except.ok 180, []⟩ :=
  (c9_idempotent envOk config1 50 180 [recEmail, recCall] [recEmail, recCall]
    rfl (by decide) (by decide) rfl (by decide)).1

/-- C5 counterexample: a cycle whose only candidate hits an
unrecoverable body-parse failure does not merely skip that record: sync
returns the parse error instead of completing and advancing the
checkpoint to the fetched maximum updatedAt 180. -/
theorem c5_counterexample :
    (sync envParseFail config1 50).result = .error "parse" ∧
      (sync envParseFail config1 50).result ≠
        .ok (maxUpdatedAt [recEmail, recCall]) := by
  refine ⟨by decide, by decide⟩

/-- C5 amended: an unrecoverable body-parse failure for a candidate is
not tolerated as a per-record skip; it propagates out of sync exactly
like a delivery failure, aborting the cycle so that no checkpoint is
returned. -/
theorem c5_parse_error_aborts (env : Env) (config : Config)
    (lastCheck : Nat) (data : List Recording) (r : Recording)
    (er : EnrichedRecording) (e : String)
    (hf : env.fetchRecordings lastCheck = .ok data)
    (hmem : r ∈ data) (hfil : filterRecord config lastCheck r = true)
    (henr : enrich env r = some er)
    (hnote : r.type ≠ "note")
    (hparse : env.mimeParse (mimeWrap r.body) = .error e) :
    (sync env config lastCheck).result.toOption = none := by
  have hrec := enrich_recording henr
  have hpb : parseBody env er.recording = .error e := by
    rw [hrec]
    simp [parseBody, hnote, hparse]
  have hfmt : formatWebhook env config er = .error e := by
    simp [formatWebhook, hpb]
  have hsend : sendWebhook env config r = .error e := by
    simp [sendWebhook, henr, hfmt]
  exact sync_error_of_candidate hf hmem hfil hsend

/-- Closed instance of the amended C5: with MIME parsing failing, the
cycle aborts and returns no checkpoint. -/
theorem c5_witness : (sync envParseFail config1 50).result.toOption = none :=
  c5_parse_error_aborts envParseFail config1 50 [recEmail, recCall] recEmail
    er1 "parse" rfl (by decide) (by decide) rfl (by decide) rfl

/-- C6: the subject resolver maps Party to people, Deal to deals, Kase
to kases, and anything unrecognized to people without error; a
successful fetch uses its path once; a failing people fetch is retried
against companies exactly once, its outcome becoming the result; and a
failure on any other path propagates immediately with no retry. -/
theorem c6_subject_resolver (env : Env) (id : Nat) :
    getSubjectPath "Party" = "people" ∧
    getSubjectPath "Deal" = "deals" ∧
    getSubjectPath "Kase" = "kases" ∧
    (∀ t, t ≠ "Party" → t ≠ "Deal" → t ≠ "Kase" →
      getSubjectPath t = "people") ∧
    (∀ s path, env.fetchSubject path id = .ok s →
      getSubjectT env id path = (.ok s, [path])) ∧
    (∀ e, env.fetchSubject "people" id = .error e →
      getSubjectT env id "people" =
        (env.fetchSubject "companies" id, ["people", "companies"])) ∧
    (∀ path e, path ≠ "people" → env.fetchSubject path id = .error e →
      getSubjectT env id path = (.error e, [path])) := by
  refine ⟨rfl, rfl, rfl, ?_, ?_, ?_, ?_⟩
  · intro t h1 h2 h3
    simp [getSubjectPath, h1, h2, h3]
  · intro s path h
    simp [getSubjectT, h]
  · intro e he
    cases hc : env.fetchSubject "companies" id with
    | error e2 => simp [getSubjectT, he, hc]
    | ok s => simp [getSubjectT, he, hc]
  · intro path e hpath he
    simp [getSubjectT, he, hpath]

/-- Closed instance of C6: a failing people fetch is retried against
companies and succeeds there; a failing deals fetch propagates
immediately. -/
theorem c6_witness :
    getSubjectT envPeopleFail 7 "people" = (.ok subj1, ["people", "companies"]) ∧
      getSubjectT envSubFail 7 "deals" = (.error "subject down", ["deals"]) := by
  constructor
  · have h := (c6_subject_resolver envPeopleFail 7).2.2.2.2.2.1 "not a person" rfl
    rw [h]
    rfl
  · exact (c6_subject_resolver envSubFail 7).2.2.2.2.2.2 "deals" "subject down"
      (by decide) rfl

/-- C7: a note body passes through verbatim; any other type is wrapped
with a plaintext content-type header and MIME parsed, the extracted
text falling back to the raw body when empty and to the empty string
when both are empty, and a successful parse never fails merely because
the content is empty. -/
theorem c7_parse_body (env : Env) (r : Recording) :
    (r.type = "note" → parseBody env r = .ok r.body) ∧
    (r.type ≠ "note" → ∀ t, env.mimeParse (mimeWrap r.body) = .ok t →
      parseBody env r =
        .ok (if t ≠ "" then t else if r.body ≠ "" then r.body else "")) ∧
    (r.type ≠ "note" → ∀ e, env.mimeParse (mimeWrap r.body) = .error e →
      parseBody env r = .error e) := by
  refine ⟨?_, ?_, ?_⟩
  · intro h
    simp [parseBody, h]
  · intro h t ht
    have hstep : parseBody env r = .ok (jsOr t (jsOr r.body "")) := by
      simp [parseBody, h, ht]
    rw [hstep]
    by_cases h1 : t = "" <;> by_cases h2 : r.body = "" <;>
      simp [jsOr, h1, h2]
  · intro h e he
    simp [parseBody, h, he]

/-- Closed instance of C7: a note body is returned byte for byte, and an
email body yields the MIME-extracted text. -/
theorem c7_witness :
    parseBody envOk recNote = .ok "raw note body" ∧
      parseBody envOk recEmail = .ok "parsed text" := by
  constructor
  · exact (c7_parse_body envOk recNote).1 rfl
  · have h := (c7_parse_body envOk recEmail).2.1 (by decide) "parsed text" rfl
    simpa using h

/-- C10: on an enriched recording the formatter emits the payload whose
main text is the author first name followed by shared, the recording
link labelled with the type label, about, and the subject link labelled
with the subject name; with exactly one attachment carrying the raw
body as fallback, the parsed body as text, createdAt over 1000 as ts,
and mrkdwn in text and pretext; title and title link (the recording
link) are attached exactly when the recording title is present. -/
theorem c10_format_webhook (env : Env) (config : Config)
    (er : EnrichedRecording) (body : String)
    (hp : parseBody env er.recording = .ok body) :
    formatWebhook env config er = .ok
      { text := (er.author.name.splitOn " ").headD "" ++ " shared <" ++
          recordingLinkOf config er.recording ++ "|" ++
          ((recordingTypes.lookup er.recording.type).getD "a note") ++
          "> about <" ++ subjectLinkOf config er ++ "|" ++
          er.recording.subjectName ++ ">"
        username := "highrise"
        icon_url := "http://68.media.tumblr.com/avatar_079aaa3d2066_128.png"
        attachments := [{
          fallback := er.recording.body
          text := body
          ts := (er.recording.createdAt : ℚ) / 1000
          mrkdwn_in := ["text", "pretext"]
          title := if er.recording.title ≠ "" then some er.recording.title
            else none
          title_link := if er.recording.title ≠ "" then
            some (recordingLinkOf config er.recording) else none }] } := by
  by_cases ht : er.recording.title = "" <;>
    simp [formatWebhook, hp, truncate, ht]

/-- Closed instance of C10: the payload for the sample enriched email. -/
theorem c10_witness :
    formatWebhook envOk config1 er1 = .ok
      { text := (er1.author.name.splitOn " ").headD "" ++ " shared <" ++
          recordingLinkOf config1 er1.recording ++ "|" ++
          ((recordingTypes.lookup er1.recording.type).getD "a note") ++
          "> about <" ++ subjectLinkOf config1 er1 ++ "|" ++
          er1.recording.subjectName ++ ">"
        username := "highrise"
        icon_url := "http://68.media.tumblr.com/avatar_079aaa3d2066_128.png"
        attachments := [{
          fallback := er1.recording.body
          text := "parsed text"
          ts := (er1.recording.createdAt : ℚ) / 1000
          mrkdwn_in := ["text", "pretext"]
          title := if er1.recording.title ≠ "" then some er1.recording.title
            else none
          title_link := if er1.recording.title ≠ "" then
            some (recordingLinkOf config1 er1.recording) else none }] } :=
  c10_format_webhook envOk config1 er1 "parsed text" rfl
